import Mathlib

/-
Verification of the pbs-rs rendering core: a shallow embedding of
src/rendering/framebuffer.rs and
pbs_engine/src/core/rendering/program_pipeline.rs, with theorems about the
framebuffer construction, clearing and lookup operations and the program
pipeline build and uniform-setting operations.  GL driver interactions are
modelled by explicit driver records supplying the values the driver would
return (object ids, completeness status, link results, resource locations).
-/

/-- Modelled from the spec: the pixel-format enum lives in
src/rendering/texture.rs, which is not part of the provided sources.  The
depth, depth-stencil and stencil variants are exactly those matched by
Framebuffer::is_depth_stencil_attachment; the remaining variants are
representative color formats (the spec mentions a 4 x 8-bit color format),
all of which fall into the wildcard arm of the classification table. -/
inductive SizedTextureFormat where
  | Rgba8
  | Rgba16f
  | Rgb32f
  | Depth16
  | Depth24
  | Depth32
  | Depth32f
  | Depth24Stencil8
  | Depth32fStencil8
  | StencilIndex8
deriving DecidableEq, Repr

/-- The AttachmentType enum of framebuffer.rs. -/
inductive AttachmentType where
  | Texture
  | Renderbuffer
  | Undefined
deriving DecidableEq, Repr

/-- The AttachmentBindPoint enum of framebuffer.rs: GLenum values are
modelled as Nat, the i32 sequential color index as Int. -/
inductive AttachmentBindPoint where
  | ColorAttachment (glenum : Nat) (index : Int)
  | DepthAttachment (glenum : Nat)
  | DepthStencilAttachment (glenum : Nat)
  | StencilAttachment (glenum : Nat)
deriving DecidableEq, Repr

/-- The FramebufferError enum of framebuffer.rs. -/
inductive FramebufferError where
  | Unidentified
  | IncompleteAttachment
  | IncompleteMissingAttachment
  | IncompleteDrawBuffer
  | Unknown
deriving DecidableEq, Repr

/-- The FramebufferAttachmentCreateInfo struct of framebuffer.rs. -/
structure FramebufferAttachmentCreateInfo where
  format : SizedTextureFormat
  attachment_type : AttachmentType
deriving DecidableEq, Repr

/-- The FramebufferAttachment struct of framebuffer.rs (the size argument of
its constructor is dropped by the source constructor as well). -/
structure FramebufferAttachment where
  id : Nat
  format : SizedTextureFormat
  attachment_type : AttachmentType
  attachment_bind_point : AttachmentBindPoint
deriving DecidableEq, Repr

/-- The Framebuffer struct of framebuffer.rs; UVec2 is modelled as a pair. -/
structure Framebuffer where
  id : Nat
  size : Nat × Nat
  texture_attachments : List FramebufferAttachment
  renderbuffer_attachments : List FramebufferAttachment
  has_depth : Bool
deriving DecidableEq, Repr

/-- Numeric value of gl::COLOR_ATTACHMENT0. -/
def GL_COLOR_ATTACHMENT0 : Nat := 36064
/-- Numeric value of gl::DEPTH_ATTACHMENT. -/
def GL_DEPTH_ATTACHMENT : Nat := 36096
/-- Numeric value of gl::DEPTH_STENCIL_ATTACHMENT. -/
def GL_DEPTH_STENCIL_ATTACHMENT : Nat := 33306
/-- Numeric value of gl::STENCIL_ATTACHMENT. -/
def GL_STENCIL_ATTACHMENT : Nat := 36128
/-- Numeric value of gl::FRAMEBUFFER_COMPLETE. -/
def GL_FRAMEBUFFER_COMPLETE : Nat := 36053
/-- Numeric value of gl::FRAMEBUFFER_UNDEFINED. -/
def GL_FRAMEBUFFER_UNDEFINED : Nat := 33305
/-- Numeric value of gl::FRAMEBUFFER_INCOMPLETE_ATTACHMENT. -/
def GL_FRAMEBUFFER_INCOMPLETE_ATTACHMENT : Nat := 36054
/-- Numeric value of gl::FRAMEBUFFER_INCOMPLETE_MISSING_ATTACHMENT. -/
def GL_FRAMEBUFFER_INCOMPLETE_MISSING_ATTACHMENT : Nat := 36055
/-- Numeric value of gl::FRAMEBUFFER_INCOMPLETE_DRAW_BUFFER. -/
def GL_FRAMEBUFFER_INCOMPLETE_DRAW_BUFFER : Nat := 36059
/-- Numeric value of gl::FRAMEBUFFER_UNSUPPORTED. -/
def GL_FRAMEBUFFER_UNSUPPORTED : Nat := 36061

/-- Framebuffer::is_depth_stencil_attachment of framebuffer.rs: the fixed
format-to-bind-point classification table. -/
def is_depth_stencil_attachment (format : SizedTextureFormat) :
    Option AttachmentBindPoint :=
  match format with
  | .Depth16 | .Depth24 | .Depth32 | .Depth32f =>
      some (AttachmentBindPoint.DepthAttachment GL_DEPTH_ATTACHMENT)
  | .Depth24Stencil8 | .Depth32fStencil8 =>
      some (AttachmentBindPoint.DepthStencilAttachment GL_DEPTH_STENCIL_ATTACHMENT)
  | .StencilIndex8 =>
      some (AttachmentBindPoint.StencilAttachment GL_STENCIL_ATTACHMENT)
  | _ => none

/-- Framebuffer::check_status of framebuffer.rs, as a function of the status
value returned by gl::CheckNamedFramebufferStatus.  Note the wildcard arm of
the source returns Ok. -/
def check_status (status : Nat) : Except FramebufferError Unit :=
  if status = GL_FRAMEBUFFER_UNDEFINED then
    Except.error FramebufferError.Unidentified
  else if status = GL_FRAMEBUFFER_INCOMPLETE_ATTACHMENT then
    Except.error FramebufferError.IncompleteAttachment
  else if status = GL_FRAMEBUFFER_INCOMPLETE_MISSING_ATTACHMENT then
    Except.error FramebufferError.IncompleteMissingAttachment
  else if status = GL_FRAMEBUFFER_INCOMPLETE_DRAW_BUFFER then
    Except.error FramebufferError.IncompleteDrawBuffer
  else
    Except.ok ()

/-- One iteration step of the attachment loops in Framebuffer::new, shared
verbatim by the texture and the renderbuffer subset: the running state is
(color_attachment_count, output_locations, has_depth_attachment), the input
is the list of (create_info, allocated id) pairs in caller order, and the
produced attachment list is returned alongside the final state.  In the
color arm the counter is incremented before the i32 index is stored in the
bind point, exactly as in the source. -/
def attach_loop (c : Nat) (locs : List Nat) (hd : Bool) :
    List (FramebufferAttachmentCreateInfo × Nat) →
      (Nat × List Nat × Bool) × List FramebufferAttachment
  | [] => ((c, locs, hd), [])
  | (ci, ident) :: rest =>
    match is_depth_stencil_attachment ci.format with
    | some bp =>
        let r := attach_loop c locs true rest
        (r.1, FramebufferAttachment.mk ident ci.format ci.attachment_type bp :: r.2)
    | none =>
        let output_location := GL_COLOR_ATTACHMENT0 + c
        let r := attach_loop (c + 1) (locs ++ [output_location]) hd rest
        (r.1,
          FramebufferAttachment.mk ident ci.format ci.attachment_type
            (AttachmentBindPoint.ColorAttachment output_location (Int.ofNat (c + 1)))
            :: r.2)

/-- Driver abstraction for Framebuffer::new: the framebuffer id handed out by
gl::CreateFramebuffers, the id of the k-th created texture and of the k-th
created renderbuffer, and the completeness status reported by
gl::CheckNamedFramebufferStatus. -/
structure GlFramebufferDriver where
  framebufferId : Nat
  textureId : Nat → Nat
  renderbufferId : Nat → Nat
  status : Nat

/-- The texture-backed subset filter of Framebuffer::new, in caller order. -/
def tex_subset (attachment_create_infos : List FramebufferAttachmentCreateInfo) :
    List FramebufferAttachmentCreateInfo :=
  attachment_create_infos.filter
    (fun ci => ci.attachment_type = AttachmentType.Texture)

/-- The renderbuffer-backed subset filter of Framebuffer::new, in caller
order (the source matches on the type with a wildcard arm). -/
def rb_subset (attachment_create_infos : List FramebufferAttachmentCreateInfo) :
    List FramebufferAttachmentCreateInfo :=
  attachment_create_infos.filter
    (fun ci => match ci.attachment_type with
      | AttachmentType.Renderbuffer => true
      | _ => false)

/-- The attachment loop of Framebuffer::new run over the texture subset,
starting from color counter 0, empty draw-buffer list and no depth flag. -/
def tex_run (drv : GlFramebufferDriver)
    (infos : List FramebufferAttachmentCreateInfo) :
    (Nat × List Nat × Bool) × List FramebufferAttachment :=
  attach_loop 0 [] false
    ((tex_subset infos).zip ((List.range (tex_subset infos).length).map drv.textureId))

/-- The attachment loop of Framebuffer::new continued over the renderbuffer
subset with the running state left by the texture subset. -/
def rb_run (drv : GlFramebufferDriver)
    (infos : List FramebufferAttachmentCreateInfo) :
    (Nat × List Nat × Bool) × List FramebufferAttachment :=
  attach_loop (tex_run drv infos).1.1 (tex_run drv infos).1.2.1
    (tex_run drv infos).1.2.2
    ((rb_subset infos).zip
      ((List.range (rb_subset infos).length).map drv.renderbufferId))

/-- Framebuffer::new of framebuffer.rs: split the create infos into the
texture-backed and the renderbuffer-backed subsets (each in caller order),
run the attachment loop over the texture subset starting from counter 0 and
continue it over the renderbuffer subset with the same running state, then
gate the result on check_status. -/
def Framebuffer.new (drv : GlFramebufferDriver) (size : Nat × Nat)
    (attachment_create_infos : List FramebufferAttachmentCreateInfo) :
    Except FramebufferError Framebuffer :=
  match check_status drv.status with
  | Except.error e => Except.error e
  | Except.ok _ =>
      Except.ok
        { id := drv.framebufferId
          size := size
          texture_attachments := (tex_run drv attachment_create_infos).2
          renderbuffer_attachments := (rb_run drv attachment_create_infos).2
          has_depth := (rb_run drv attachment_create_infos).1.2.2 }

/-- A four-component float vector (Vec4 of the math library), modelled with
exact rationals since only literal values occur in the embedded code. -/
abbrev Vec4 : Type := ℚ × ℚ × ℚ × ℚ

/-- One clear command issued by Framebuffer::clear: a
gl::ClearNamedFramebufferfv on GL_COLOR at a draw-buffer index, a
gl::ClearNamedFramebufferfv on GL_DEPTH, a gl::ClearNamedFramebufferfi on
GL_DEPTH_STENCIL, or a gl::ClearNamedFramebufferiv on GL_STENCIL. -/
inductive ClearCommand where
  | color (drawBuffer : Int) (value : Vec4)
  | depth (value : ℚ)
  | depthStencil (depthValue : ℚ) (stencilValue : Int)
  | stencil (value : Int)
deriving DecidableEq, Repr

/-- The dispatch applied by Framebuffer::clear to one attachment. -/
def clear_command_for (clear_color : Vec4) (a : FramebufferAttachment) :
    ClearCommand :=
  match a.attachment_bind_point with
  | AttachmentBindPoint.ColorAttachment _ i => ClearCommand.color i clear_color
  | AttachmentBindPoint.DepthAttachment _ => ClearCommand.depth 1
  | AttachmentBindPoint.DepthStencilAttachment _ => ClearCommand.depthStencil 1 0
  | AttachmentBindPoint.StencilAttachment _ => ClearCommand.stencil 1

/-- Framebuffer::clear of framebuffer.rs: iterate the texture attachments
chained with the renderbuffer attachments and dispatch on each bind point;
the result is the list of issued clear commands in order. -/
def Framebuffer.clear (self : Framebuffer) (clear_color : Vec4) :
    List ClearCommand :=
  (self.texture_attachments ++ self.renderbuffer_attachments).map
    (clear_command_for clear_color)

/-- Framebuffer::get_texture_attachment of framebuffer.rs: the assert is
modelled by none (the call is fatal), the successful indexing by some. -/
def Framebuffer.get_texture_attachment (self : Framebuffer) (index : Nat) :
    Option FramebufferAttachment :=
  if h : index < self.texture_attachments.length then
    some (self.texture_attachments.get ⟨index, h⟩)
  else
    none

/-- The ShaderType enum of the shader module, as matched by
ProgramPipeline::shader_type_to_array_index. -/
inductive ShaderType where
  | Vertex
  | TesselationControl
  | TesselationEvaluation
  | Geometry
  | Fragment
  | Compute
deriving DecidableEq, Repr

/-- ProgramPipeline::shader_type_to_array_index of program_pipeline.rs. -/
def shader_type_to_array_index (shader_type : ShaderType) : Fin 6 :=
  match shader_type with
  | ShaderType.Vertex => 0
  | ShaderType.TesselationControl => 1
  | ShaderType.TesselationEvaluation => 2
  | ShaderType.Geometry => 3
  | ShaderType.Fragment => 4
  | ShaderType.Compute => 5

/-- A compiled shader unit (external collaborator): its driver handle and its
stage kind, as exposed by get_id and get_type. -/
structure Shader where
  id : Nat
  ty : ShaderType
deriving DecidableEq, Repr

/-- The ProgramPipeline struct of program_pipeline.rs: the pipeline handle, a
fixed 6-slot array of optional borrowed shader references and a fixed 6-slot
array of optional owned linked-program handles, both modelled as functions
from Fin 6. -/
structure ProgramPipeline where
  id : Nat
  shaders : Fin 6 → Option Shader
  shader_programs : Fin 6 → Option Nat

/-- ProgramPipeline::new of program_pipeline.rs, with the pipeline id handed
out by gl::CreateProgramPipelines taken as a parameter. -/
def ProgramPipeline.new (ident : Nat) : ProgramPipeline :=
  { id := ident, shaders := fun _ => none, shader_programs := fun _ => none }

/-- ProgramPipeline::add_shader of program_pipeline.rs: store the borrowed
reference at the slot of the shader stage kind; the returned Bool records
whether the replace warning was printed (the slot was already occupied).
The call never fails. -/
def ProgramPipeline.add_shader (self : ProgramPipeline) (shader : Shader) :
    ProgramPipeline × Bool :=
  let idx := shader_type_to_array_index shader.ty
  let warned := (self.shaders idx).isSome
  ({ self with shaders := Function.update self.shaders idx (some shader) }, warned)

/-- Driver abstraction for ProgramPipeline::build: whether linking the
program holding a given shader succeeds, the info-log text the driver
reports for that program, and the id of the first program created by
gl::CreateProgram (successive calls hand out successive ids). -/
structure GlLinkDriver where
  linkOk : Nat → Bool
  infoLog : Nat → String
  firstProgramId : Nat

/-- One program-creation and link attempt recorded while running
ProgramPipeline::build: the slot it came from, the attached shader id, the
created program id and the link outcome. -/
structure LinkEvent where
  slot : Fin 6
  shaderId : Nat
  programId : Nat
  ok : Bool
deriving DecidableEq, Repr

/-- The loop body of ProgramPipeline::build over the given slot order: for an
occupied slot create a program, link it, and on success store its handle at
the slot of the shader stage kind and continue; on failure stop at once and
return the info log of the failing program as the error.  The returned
triple is (final program array, recorded link events, result). -/
def build_loop (drv : GlLinkDriver) (shaders : Fin 6 → Option Shader)
    (programs : Fin 6 → Option Nat) (nextId : Nat) :
    List (Fin 6) → (Fin 6 → Option Nat) × List LinkEvent × Except String Unit
  | [] => (programs, [], Except.ok ())
  | i :: rest =>
    match shaders i with
    | none => build_loop drv shaders programs nextId rest
    | some shader =>
        let program_id := nextId
        if drv.linkOk shader.id then
          let r := build_loop drv shaders
            (Function.update programs (shader_type_to_array_index shader.ty)
              (some program_id))
            (program_id + 1) rest
          (r.1, LinkEvent.mk i shader.id program_id true :: r.2.1, r.2.2)
        else
          (programs, [LinkEvent.mk i shader.id program_id false],
            Except.error (drv.infoLog shader.id))

/-- The slot iteration order of ProgramPipeline::build (self.shaders.iter). -/
def allSlots : List (Fin 6) := [0, 1, 2, 3, 4, 5]

/-- ProgramPipeline::build of program_pipeline.rs.  As in the source, the
mutation of the program array persists in the pipeline even when an error is
returned; the link events record which slots were processed. -/
def ProgramPipeline.build (self : ProgramPipeline) (drv : GlLinkDriver) :
    ProgramPipeline × List LinkEvent × Except String Unit :=
  let r := build_loop drv self.shaders self.shader_programs drv.firstProgramId allSlots
  ({ self with shader_programs := r.1 }, r.2.1, r.2.2)

/-- Driver abstraction for the uniform-setting operations: the location the
driver resolves for a named resource of a given program, as returned by
gl::GetProgramResourceLocation. -/
structure GlResourceDriver where
  resourceLocation : Nat → String → Int

/-- ProgramPipeline::get_shader_stage_id_and_resource_location of
program_pipeline.rs: look up the linked program of the stage, resolve the
name to a location, and treat a missing program or a negative location as an
error. -/
def get_shader_stage_id_and_resource_location (self : ProgramPipeline)
    (drv : GlResourceDriver) (stage : ShaderType) (name : String) :
    Except String (Nat × Int) :=
  match self.shader_programs (shader_type_to_array_index stage) with
  | none => Except.error "Shader is not present in the program pipeline"
  | some program_id =>
      let location := drv.resourceLocation program_id name
      if location < 0 then
        Except.error
          ("Uniform " ++ name ++ " is not active or does not exist in shader stage")
      else
        Except.ok (program_id, location)

/-- One driver call issued by a uniform-setting operation. -/
inductive GlCall where
  | programUniformMatrix4fv (program : Nat) (location : Int) (value : Nat)
  | programUniform1i (program : Nat) (location : Int) (value : Int)
  | bindTextureUnit (unit : Int) (texture : Nat)
  | bindSampler (unit : Int) (sampler : Nat)
deriving DecidableEq, Repr

/-- Outcome of a uniform-setting operation: either the process aborts at the
call site (the expect of the source panics) or a list of driver calls is
issued. -/
inductive SetOutcome where
  | fatal (msg : String)
  | calls (cs : List GlCall)
deriving DecidableEq, Repr

/-- ProgramPipeline::set_matrix4f of program_pipeline.rs; the matrix value is
an opaque handle since its contents are only forwarded to the driver. -/
def ProgramPipeline.set_matrix4f (self : ProgramPipeline)
    (drv : GlResourceDriver) (name : String) (value : Nat) (stage : ShaderType) :
    SetOutcome :=
  match get_shader_stage_id_and_resource_location self drv stage name with
  | Except.error e =>
      SetOutcome.fatal ("Failed to get program id or uniform location: " ++ e)
  | Except.ok (program_id, location) =>
      SetOutcome.calls [GlCall.programUniformMatrix4fv program_id location value]

/-- ProgramPipeline::set_texture of program_pipeline.rs: the program id of
the resolved pair is discarded and the location doubles as the texture unit
index for both bind calls. -/
def ProgramPipeline.set_texture (self : ProgramPipeline)
    (drv : GlResourceDriver) (name : String) (texture sampler : Nat)
    (stage : ShaderType) : SetOutcome :=
  match get_shader_stage_id_and_resource_location self drv stage name with
  | Except.error e =>
      SetOutcome.fatal ("Failed to get program id or uniform location: " ++ e)
  | Except.ok (_, location) =>
      SetOutcome.calls
        [GlCall.bindTextureUnit location texture, GlCall.bindSampler location sampler]

/-- ProgramPipeline::set_integer of program_pipeline.rs. -/
def ProgramPipeline.set_integer (self : ProgramPipeline)
    (drv : GlResourceDriver) (name : String) (value : Int) (stage : ShaderType) :
    SetOutcome :=
  match get_shader_stage_id_and_resource_location self drv stage name with
  | Except.error e =>
      SetOutcome.fatal ("Failed to get program id or uniform location: " ++ e)
  | Except.ok (program_id, location) =>
      SetOutcome.calls [GlCall.programUniform1i program_id location value]

/-- A bind point of the color class. -/
def isColorBp (bp : AttachmentBindPoint) : Bool :=
  match bp with
  | AttachmentBindPoint.ColorAttachment _ _ => true
  | _ => false

/-- A bind point of the depth class. -/
def isDepthBp (bp : AttachmentBindPoint) : Bool :=
  match bp with
  | AttachmentBindPoint.DepthAttachment _ => true
  | _ => false

/-- A bind point of the depth-stencil class. -/
def isDepthStencilBp (bp : AttachmentBindPoint) : Bool :=
  match bp with
  | AttachmentBindPoint.DepthStencilAttachment _ => true
  | _ => false

/-- A bind point of the stencil class. -/
def isStencilBp (bp : AttachmentBindPoint) : Bool :=
  match bp with
  | AttachmentBindPoint.StencilAttachment _ => true
  | _ => false

/-- An attachment whose bind point is not a color bind point, i.e. a
depth-class attachment in the wide sense of the spec (depth, depth-stencil
or stencil). -/
def isDepthClassAttachment (a : FramebufferAttachment) : Bool :=
  !(isColorBp a.attachment_bind_point)

/-- A create info whose format the classification table sends to a
depth-class bind point. -/
def classifiesDepth (ci : FramebufferAttachmentCreateInfo) : Bool :=
  (is_depth_stencil_attachment ci.format).isSome

/-- The classification table never produces a color bind point. -/
lemma is_depth_stencil_attachment_not_color (f : SizedTextureFormat)
    (bp : AttachmentBindPoint) (h : is_depth_stencil_attachment f = some bp) :
    isColorBp bp = false := by
  cases f <;> simp [is_depth_stencil_attachment] at h <;> simp [← h, isColorBp]

/-- The attachment list produced by the attachment loop holds exactly one
attachment per input pair, in order. -/
lemma attach_loop_length (pairs : List (FramebufferAttachmentCreateInfo × Nat)) :
    ∀ c locs hd, (attach_loop c locs hd pairs).2.length = pairs.length := by
  induction pairs with
  | nil => intro c locs hd; rfl
  | cons p rest ih =>
      intro c locs hd
      cases hcl : is_depth_stencil_attachment p.1.format <;>
        simp [attach_loop, hcl, ih]

/-- The attachment loop produces a depth-class attachment exactly for the
input pairs whose format classifies as depth-class. -/
lemma attach_loop_countP_depth
    (pairs : List (FramebufferAttachmentCreateInfo × Nat)) :
    ∀ c locs hd,
      (attach_loop c locs hd pairs).2.countP isDepthClassAttachment
        = pairs.countP (fun p => classifiesDepth p.1) := by
  induction pairs with
  | nil => intro c locs hd; rfl
  | cons p rest ih =>
      intro c locs hd
      cases hcl : is_depth_stencil_attachment p.1.format with
      | none =>
          simp [attach_loop, hcl, List.countP_cons, ih, isDepthClassAttachment,
            isColorBp, classifiesDepth]
      | some bp =>
          have hbp := is_depth_stencil_attachment_not_color p.1.format bp hcl
          simp [attach_loop, hcl, List.countP_cons, ih, isDepthClassAttachment,
            hbp, classifiesDepth]

/-- The depth flag computed by the attachment loop is the initial flag or-ed
with the existence of a depth-class pair in the input. -/
lemma attach_loop_has_depth
    (pairs : List (FramebufferAttachmentCreateInfo × Nat)) :
    ∀ c locs hd,
      (attach_loop c locs hd pairs).1.2.2
        = (hd || pairs.any fun p => classifiesDepth p.1) := by
  induction pairs with
  | nil => intro c locs hd; simp [attach_loop]
  | cons p rest ih =>
      intro c locs hd
      cases hcl : is_depth_stencil_attachment p.1.format with
      | none =>
          simp [attach_loop, hcl, ih, classifiesDepth]
      | some bp =>
          simp [attach_loop, hcl, ih, classifiesDepth]

/-- Zipping a list with an equally long id list and then counting a
predicate on the first components counts the predicate on the original
list. -/
lemma countP_zip_fst {α β : Type} (xs : List α) (ys : List β)
    (q : α → Bool) (h : xs.length ≤ ys.length) :
    (xs.zip ys).countP (fun p => q p.1) = xs.countP q := by
  have hmap : (xs.zip ys).map Prod.fst = xs := List.map_fst_zip xs ys h
  calc (xs.zip ys).countP (fun p => q p.1)
      = ((xs.zip ys).map Prod.fst).countP q := (List.countP_map q Prod.fst _).symm
    _ = xs.countP q := by rw [hmap]

/-- Zipping a list with an equally long id list and then testing a predicate
on the first components tests the predicate on the original list. -/
lemma any_zip_fst {α β : Type} (xs : List α) (ys : List β)
    (q : α → Bool) (h : xs.length ≤ ys.length) :
    ((xs.zip ys).any fun p => q p.1) = xs.any q := by
  induction xs generalizing ys with
  | nil => simp
  | cons x xs ih =>
      cases ys with
      | nil => simp at h
      | cons y ys =>
          simp only [List.zip_cons_cons, List.any_cons]
          rw [ih ys (by simpa using Nat.le_of_succ_le_succ h)]

/-- Counting two pointwise exclusive predicates separately counts their
disjunction. -/
lemma countP_add_disjoint {α : Type} (l : List α) (p q : α → Bool)
    (h : ∀ a ∈ l, p a = true → q a = false) :
    l.countP p + l.countP q = l.countP (fun a => p a || q a) := by
  induction l with
  | nil => rfl
  | cons a l ih =>
      have ht := ih (fun b hb => h b (List.mem_cons_of_mem a hb))
      have ha := h a (List.mem_cons_self a l)
      rw [List.countP_cons, List.countP_cons, List.countP_cons, ← ht]
      cases hp : p a with
      | true => rw [ha hp]; simp [hp]; omega
      | false => cases hq : q a <;> simp [hp, hq] <;> omega

/-- List.any distributes over a pointwise disjunction. -/
lemma any_or_split {α : Type} (l : List α) (p q : α → Bool) :
    (l.any fun a => p a || q a) = (l.any p || l.any q) := by
  induction l with
  | nil => rfl
  | cons a l ih =>
      simp only [List.any_cons, ih]
      cases p a <;> cases q a <;> cases l.any p <;> cases l.any q <;> rfl

/-- Inversion of a successful Framebuffer::new: the completeness gate passed
and the returned framebuffer is assembled from the two attachment runs. -/
lemma new_ok_elim (drv : GlFramebufferDriver) (size : Nat × Nat)
    (infos : List FramebufferAttachmentCreateInfo) (fb : Framebuffer)
    (h : Framebuffer.new drv size infos = Except.ok fb) :
    check_status drv.status = Except.ok () ∧
      fb = { id := drv.framebufferId
             size := size
             texture_attachments := (tex_run drv infos).2
             renderbuffer_attachments := (rb_run drv infos).2
             has_depth := (rb_run drv infos).1.2.2 } := by
  unfold Framebuffer.new at h
  cases hc : check_status drv.status with
  | error e => rw [hc] at h; cases h
  | ok u =>
      rw [hc] at h
      cases u
      exact ⟨rfl, (Except.ok.injEq _ _).mp h.symm⟩

/-- The create infos that reach an attachment list of Framebuffer::new: the
ones requested with the texture or the renderbuffer attachment type (an
AttachmentType.Undefined request is dropped by both subset filters). -/
def requestedDepthClass (ci : FramebufferAttachmentCreateInfo) : Bool :=
  (ci.attachment_type != AttachmentType.Undefined) && classifiesDepth ci

/-- The number of depth-class attachments across both attachment lists of a
successfully constructed framebuffer equals the number of depth-class
texture or renderbuffer create infos of the request. -/
lemma new_depth_class_count (drv : GlFramebufferDriver) (size : Nat × Nat)
    (infos : List FramebufferAttachmentCreateInfo) (fb : Framebuffer)
    (h : Framebuffer.new drv size infos = Except.ok fb) :
    (fb.texture_attachments ++ fb.renderbuffer_attachments).countP
        isDepthClassAttachment
      = infos.countP requestedDepthClass := by
  obtain ⟨-, rfl⟩ := new_ok_elim drv size infos fb h
  show ((tex_run drv infos).2 ++ (rb_run drv infos).2).countP isDepthClassAttachment = _
  rw [List.countP_append]
  have htex : (tex_run drv infos).2.countP isDepthClassAttachment
      = (tex_subset infos).countP classifiesDepth := by
    unfold tex_run
    rw [attach_loop_countP_depth]
    exact countP_zip_fst _ _ _ (by simp)
  have hrb : (rb_run drv infos).2.countP isDepthClassAttachment
      = (rb_subset infos).countP classifiesDepth := by
    unfold rb_run
    rw [attach_loop_countP_depth]
    exact countP_zip_fst _ _ _ (by simp)
  rw [htex, hrb]
  unfold tex_subset rb_subset
  rw [List.countP_filter, List.countP_filter]
  rw [countP_add_disjoint]
  · congr 1
    funext ci
    cases hty : ci.attachment_type <;> simp [hty, requestedDepthClass]
  · intro ci _ hci
    cases hty : ci.attachment_type <;> simp [hty] at hci ⊢

/-- The depth flag of a successfully constructed framebuffer is set exactly
when some texture or renderbuffer create info of the request classifies as
depth-class. -/
lemma new_has_depth (drv : GlFramebufferDriver) (size : Nat × Nat)
    (infos : List FramebufferAttachmentCreateInfo) (fb : Framebuffer)
    (h : Framebuffer.new drv size infos = Except.ok fb) :
    fb.has_depth = infos.any requestedDepthClass := by
  obtain ⟨-, rfl⟩ := new_ok_elim drv size infos fb h
  show (rb_run drv infos).1.2.2 = _
  unfold rb_run
  rw [attach_loop_has_depth]
  have htex : (tex_run drv infos).1.2.2
      = (tex_subset infos).any classifiesDepth := by
    unfold tex_run
    rw [attach_loop_has_depth]
    rw [any_zip_fst _ _ _ (by simp)]
    simp
  rw [htex, any_zip_fst _ _ _ (by simp)]
  unfold tex_subset rb_subset
  rw [List.any_filter, List.any_filter, ← any_or_split]
  congr 1
  funext ci
  cases hty : ci.attachment_type <;> simp [hty, requestedDepthClass]

/-- A concrete driver reporting framebuffer completeness, used to evaluate
Framebuffer::new at explicit inputs. -/
def cdrv : GlFramebufferDriver :=
  { framebufferId := 1
    textureId := fun k => 10 + k
    renderbufferId := fun k => 100 + k
    status := GL_FRAMEBUFFER_COMPLETE }

/-- An attachment bound at a color bind point. -/
def isColorAtt (a : FramebufferAttachment) : Bool :=
  isColorBp a.attachment_bind_point

/-- An attachment bound at the depth bind point. -/
def isDepthAtt (a : FramebufferAttachment) : Bool :=
  isDepthBp a.attachment_bind_point

/-- An attachment bound at the depth-stencil bind point. -/
def isDepthStencilAtt (a : FramebufferAttachment) : Bool :=
  isDepthStencilBp a.attachment_bind_point

/-- An attachment bound at the stencil bind point. -/
def isStencilAtt (a : FramebufferAttachment) : Bool :=
  isStencilBp a.attachment_bind_point

/-- A clear command of the color kind. -/
def isColorClear (c : ClearCommand) : Bool :=
  match c with
  | ClearCommand.color _ _ => true
  | _ => false

/-- A clear command of the depth kind. -/
def isDepthClear (c : ClearCommand) : Bool :=
  match c with
  | ClearCommand.depth _ => true
  | _ => false

/-- A clear command of the depth-stencil kind. -/
def isDepthStencilClear (c : ClearCommand) : Bool :=
  match c with
  | ClearCommand.depthStencil _ _ => true
  | _ => false

/-- A clear command of the stencil kind. -/
def isStencilClear (c : ClearCommand) : Bool :=
  match c with
  | ClearCommand.stencil _ => true
  | _ => false

/-- Every attachment belongs to exactly one bind-point class. -/
lemma att_class_partition (l : List FramebufferAttachment) :
    l.countP isColorAtt + l.countP isDepthAtt + l.countP isDepthStencilAtt
        + l.countP isStencilAtt
      = l.length := by
  induction l with
  | nil => rfl
  | cons a l ih =>
      simp only [List.countP_cons, List.length_cons]
      have hone : (if isColorAtt a = true then 1 else 0)
            + (if isDepthAtt a = true then 1 else 0)
            + (if isDepthStencilAtt a = true then 1 else 0)
            + (if isStencilAtt a = true then 1 else 0) = 1 := by
        cases hbp : a.attachment_bind_point <;>
          simp [isColorAtt, isDepthAtt, isDepthStencilAtt, isStencilAtt,
            isColorBp, isDepthBp, isDepthStencilBp, isStencilBp, hbp]
      omega

/-- The clear command of an attachment is of the color kind exactly when the
attachment is bound at a color bind point. -/
lemma clear_class_color (rgba : Vec4) (a : FramebufferAttachment) :
    isColorClear (clear_command_for rgba a) = isColorAtt a := by
  cases hbp : a.attachment_bind_point <;>
    simp [clear_command_for, hbp, isColorClear, isColorAtt, isColorBp]

/-- The clear command of an attachment is of the depth kind exactly when the
attachment is bound at the depth bind point. -/
lemma clear_class_depth (rgba : Vec4) (a : FramebufferAttachment) :
    isDepthClear (clear_command_for rgba a) = isDepthAtt a := by
  cases hbp : a.attachment_bind_point <;>
    simp [clear_command_for, hbp, isDepthClear, isDepthAtt, isDepthBp]

/-- The clear command of an attachment is of the depth-stencil kind exactly
when the attachment is bound at the depth-stencil bind point. -/
lemma clear_class_depth_stencil (rgba : Vec4) (a : FramebufferAttachment) :
    isDepthStencilClear (clear_command_for rgba a) = isDepthStencilAtt a := by
  cases hbp : a.attachment_bind_point <;>
    simp [clear_command_for, hbp, isDepthStencilClear, isDepthStencilAtt,
      isDepthStencilBp]

/-- The clear command of an attachment is of the stencil kind exactly when
the attachment is bound at the stencil bind point. -/
lemma clear_class_stencil (rgba : Vec4) (a : FramebufferAttachment) :
    isStencilClear (clear_command_for rgba a) = isStencilAtt a := by
  cases hbp : a.attachment_bind_point <;>
    simp [clear_command_for, hbp, isStencilClear, isStencilAtt, isStencilBp]

/-- Counting a command class over a clear run counts the matching attachment
class over both attachment lists. -/
lemma clear_countP (fb : Framebuffer) (rgba : Vec4)
    (pc : ClearCommand → Bool) (pa : FramebufferAttachment → Bool)
    (hcl : ∀ a, pc (clear_command_for rgba a) = pa a) :
    (fb.clear rgba).countP pc
      = (fb.texture_attachments ++ fb.renderbuffer_attachments).countP pa := by
  unfold Framebuffer.clear
  rw [List.countP_map]
  exact List.countP_congr (fun a _ => by simp [Function.comp, hcl a])

/-- C1: the color output locations are contiguous from GL_COLOR_ATTACHMENT0
with one counter shared across the texture and the renderbuffer subset, but
the i32 sequential index stored in each ColorAttachment bind point is the
counter value after the increment: at the failing input of one texture color
attachment followed by one renderbuffer color attachment, the attachments at
0-based color positions 0 and 1 carry stored indices 1 and 2.  The claim
says the stored index equals the 0-based position, which the first
attachment already violates (1 is not 0). -/
theorem C1_stored_color_index_is_position_plus_one :
    Framebuffer.new cdrv (256, 256)
        [⟨SizedTextureFormat.Rgba8, AttachmentType.Texture⟩,
         ⟨SizedTextureFormat.Rgba16f, AttachmentType.Renderbuffer⟩]
      = Except.ok
        { id := 1
          size := (256, 256)
          texture_attachments :=
            [⟨10, SizedTextureFormat.Rgba8, AttachmentType.Texture,
              AttachmentBindPoint.ColorAttachment 36064 1⟩]
          renderbuffer_attachments :=
            [⟨100, SizedTextureFormat.Rgba16f, AttachmentType.Renderbuffer,
              AttachmentBindPoint.ColorAttachment 36065 2⟩]
          has_depth := false }
      ∧ (1 : Int) ≠ 0 ∧ (2 : Int) ≠ 1 := by
  refine ⟨rfl, by decide, by decide⟩

/-- C2: check_status maps every status other than the four explicitly
matched incomplete codes to Ok, so a driver status of
GL_FRAMEBUFFER_UNSUPPORTED, which is not "complete", still lets
Framebuffer::new return a Framebuffer instance; the claim that every
non-complete status maps to an error of the closed set is violated, and the
FramebufferError.Unknown variant of that set is never produced. -/
theorem C2_unsupported_status_returns_ok :
    check_status GL_FRAMEBUFFER_UNSUPPORTED = Except.ok ()
      ∧ GL_FRAMEBUFFER_UNSUPPORTED ≠ GL_FRAMEBUFFER_COMPLETE
      ∧ ∃ fb, Framebuffer.new { cdrv with status := GL_FRAMEBUFFER_UNSUPPORTED }
          (4, 4) [⟨SizedTextureFormat.Rgba8, AttachmentType.Texture⟩]
          = Except.ok fb := by
  exact ⟨rfl, by decide, ⟨_, rfl⟩⟩

/-- C5 counterexample: a request of two depth-format texture attachments
passes construction (the driver reports completeness) and the returned
framebuffer holds two depth-class attachments across its lists, refuting the
claim that every returned framebuffer holds at most one. -/
theorem C5_counterexample :
    ∃ fb, Framebuffer.new cdrv (4, 4)
        [⟨SizedTextureFormat.Depth24, AttachmentType.Texture⟩,
         ⟨SizedTextureFormat.Depth24, AttachmentType.Texture⟩]
      = Except.ok fb ∧
      ¬ ((fb.texture_attachments ++ fb.renderbuffer_attachments).countP
          isDepthClassAttachment ≤ 1) := by
  exact ⟨_, rfl, by decide⟩

/-- C5 amended: Framebuffer::new does not enforce uniqueness of depth-class
attachments; the returned framebuffer holds exactly one depth-class
attachment per depth-class texture or renderbuffer create info of the
request, so it holds at most one exactly when the caller requests at most
one. -/
theorem C5_depth_class_count (drv : GlFramebufferDriver) (size : Nat × Nat)
    (infos : List FramebufferAttachmentCreateInfo) (fb : Framebuffer)
    (h : Framebuffer.new drv size infos = Except.ok fb) :
    (fb.texture_attachments ++ fb.renderbuffer_attachments).countP
        isDepthClassAttachment
      = infos.countP requestedDepthClass
      ∧ (infos.countP requestedDepthClass ≤ 1 →
          (fb.texture_attachments ++ fb.renderbuffer_attachments).countP
            isDepthClassAttachment ≤ 1) := by
  have hc := new_depth_class_count drv size infos fb h
  exact ⟨hc, fun hle => hc ▸ hle⟩

/-- C5 witness: at a request with one depth-stencil texture attachment and
one color attachment, the amended count theorem applies and gives exactly
one depth-class attachment. -/
theorem C5_witness :
    ∃ fb, Framebuffer.new cdrv (8, 8)
        [⟨SizedTextureFormat.Rgba8, AttachmentType.Texture⟩,
         ⟨SizedTextureFormat.Depth24Stencil8, AttachmentType.Texture⟩]
      = Except.ok fb ∧
      (fb.texture_attachments ++ fb.renderbuffer_attachments).countP
          isDepthClassAttachment
        = ([⟨SizedTextureFormat.Rgba8, AttachmentType.Texture⟩,
            ⟨SizedTextureFormat.Depth24Stencil8, AttachmentType.Texture⟩] :
            List FramebufferAttachmentCreateInfo).countP requestedDepthClass := by
  exact ⟨_, rfl,
    (C5_depth_class_count cdrv (8, 8)
      [⟨SizedTextureFormat.Rgba8, AttachmentType.Texture⟩,
       ⟨SizedTextureFormat.Depth24Stencil8, AttachmentType.Texture⟩] _ rfl).1⟩

/-- C10 counterexample: a create info with AttachmentType.Undefined is
dropped by both subset filters, so a request holding a depth-format info of
that type plus one color texture attachment yields a framebuffer whose
has_depth flag is false although a requested format classifies as
depth-class, refuting the claim as stated. -/
theorem C10_counterexample :
    ∃ fb, Framebuffer.new cdrv (4, 4)
        [⟨SizedTextureFormat.Depth24, AttachmentType.Undefined⟩,
         ⟨SizedTextureFormat.Rgba8, AttachmentType.Texture⟩]
      = Except.ok fb ∧ fb.has_depth = false
      ∧ (is_depth_stencil_attachment SizedTextureFormat.Depth24).isSome = true := by
  exact ⟨_, rfl, rfl, rfl⟩

/-- C10 amended: the has_depth flag of a returned framebuffer is true
exactly when some create info requested with the texture or the
renderbuffer attachment type has a format classifying as depth,
depth-stencil or stencil-only; in particular a framebuffer whose only
non-color attachment is a stencil-only StencilIndex8 texture attachment,
carrying no depth data, still reports has_depth true. -/
theorem C10_has_depth_flag :
    (∀ (drv : GlFramebufferDriver) (size : Nat × Nat)
        (infos : List FramebufferAttachmentCreateInfo) (fb : Framebuffer),
        Framebuffer.new drv size infos = Except.ok fb →
          fb.has_depth = infos.any requestedDepthClass)
      ∧ ∃ fb, Framebuffer.new cdrv (4, 4)
          [⟨SizedTextureFormat.StencilIndex8, AttachmentType.Texture⟩,
           ⟨SizedTextureFormat.Rgba8, AttachmentType.Texture⟩]
          = Except.ok fb ∧ fb.has_depth = true := by
  exact ⟨new_has_depth, ⟨_, rfl, rfl⟩⟩

/-- C10 witness: the amended flag theorem applied at a concrete request with
one depth texture attachment. -/
theorem C10_witness :
    ∃ fb, Framebuffer.new cdrv (8, 8)
        [⟨SizedTextureFormat.Depth32f, AttachmentType.Texture⟩]
      = Except.ok fb ∧
      fb.has_depth
        = ([⟨SizedTextureFormat.Depth32f, AttachmentType.Texture⟩] :
            List FramebufferAttachmentCreateInfo).any requestedDepthClass := by
  exact ⟨_, rfl,
    C10_has_depth_flag.1 cdrv (8, 8)
      [⟨SizedTextureFormat.Depth32f, AttachmentType.Texture⟩] _ rfl⟩

/-- C6: clear visits every attachment of both lists (one command per
attachment), dispatches exhaustively on the bind-point class with the
literals of the source (color cleared to the given value at the recorded
draw-buffer index, depth to 1.0, depth-stencil to depth 1.0 and stencil 0,
stencil-only to stencil 1), and on a framebuffer holding exactly one color
and one depth attachment it issues exactly one color clear carrying the
given value, exactly one depth clear to 1.0, and no stencil or
depth-stencil clear. -/
theorem C6_clear_dispatch (fb : Framebuffer) (rgba : Vec4) :
    (fb.clear rgba).length
        = fb.texture_attachments.length + fb.renderbuffer_attachments.length
      ∧ (∀ a ∈ fb.texture_attachments ++ fb.renderbuffer_attachments,
          (∀ n i, a.attachment_bind_point = AttachmentBindPoint.ColorAttachment n i →
            ClearCommand.color i rgba ∈ fb.clear rgba)
          ∧ (∀ n, a.attachment_bind_point = AttachmentBindPoint.DepthAttachment n →
              ClearCommand.depth 1 ∈ fb.clear rgba)
          ∧ (∀ n, a.attachment_bind_point = AttachmentBindPoint.DepthStencilAttachment n →
              ClearCommand.depthStencil 1 0 ∈ fb.clear rgba)
          ∧ (∀ n, a.attachment_bind_point = AttachmentBindPoint.StencilAttachment n →
              ClearCommand.stencil 1 ∈ fb.clear rgba))
      ∧ ((fb.texture_attachments ++ fb.renderbuffer_attachments).countP isColorAtt = 1 →
          (fb.texture_attachments ++ fb.renderbuffer_attachments).countP isDepthAtt = 1 →
          (fb.texture_attachments ++ fb.renderbuffer_attachments).length = 2 →
            (fb.clear rgba).countP isColorClear = 1
            ∧ (fb.clear rgba).countP isDepthClear = 1
            ∧ (fb.clear rgba).countP isStencilClear = 0
            ∧ (fb.clear rgba).countP isDepthStencilClear = 0
            ∧ (∀ i v, ClearCommand.color i v ∈ fb.clear rgba → v = rgba)
            ∧ (∀ d, ClearCommand.depth d ∈ fb.clear rgba → d = 1)) := by
  refine ⟨?_, ?_, ?_⟩
  · unfold Framebuffer.clear
    rw [List.length_map, List.length_append]
  · intro a ha
    have hmem : clear_command_for rgba a ∈ fb.clear rgba :=
      List.mem_map_of_mem (clear_command_for rgba) ha
    refine ⟨?_, ?_, ?_, ?_⟩
    · intro n i hbp
      rw [show ClearCommand.color i rgba = clear_command_for rgba a from by
        simp [clear_command_for, hbp]]
      exact hmem
    · intro n hbp
      rw [show ClearCommand.depth 1 = clear_command_for rgba a from by
        simp [clear_command_for, hbp]]
      exact hmem
    · intro n hbp
      rw [show ClearCommand.depthStencil 1 0 = clear_command_for rgba a from by
        simp [clear_command_for, hbp]]
      exact hmem
    · intro n hbp
      rw [show ClearCommand.stencil 1 = clear_command_for rgba a from by
        simp [clear_command_for, hbp]]
      exact hmem
  · intro hcol hdep hlen
    have hpart := att_class_partition
      (fb.texture_attachments ++ fb.renderbuffer_attachments)
    have hcc := clear_countP fb rgba isColorClear isColorAtt (clear_class_color rgba)
    have hdc := clear_countP fb rgba isDepthClear isDepthAtt (clear_class_depth rgba)
    have hsc := clear_countP fb rgba isStencilClear isStencilAtt (clear_class_stencil rgba)
    have hdsc := clear_countP fb rgba isDepthStencilClear isDepthStencilAtt
      (clear_class_depth_stencil rgba)
    refine ⟨by rw [hcc, hcol], by rw [hdc, hdep], ?_, ?_, ?_, ?_⟩
    · rw [hsc]; omega
    · rw [hdsc]; omega
    · intro i v hm
      unfold Framebuffer.clear at hm
      obtain ⟨a, ha, heq⟩ := List.mem_map.mp hm
      cases hbp : a.attachment_bind_point <;> simp [clear_command_for, hbp] at heq
      exact heq.2.symm
    · intro d hm
      unfold Framebuffer.clear at hm
      obtain ⟨a, ha, heq⟩ := List.mem_map.mp hm
      cases hbp : a.attachment_bind_point <;> simp [clear_command_for, hbp] at heq
      exact heq.symm

/-- A concrete framebuffer with one color texture attachment and one depth
renderbuffer attachment, used to evaluate the clear dispatch. -/
def fbCD : Framebuffer :=
  { id := 1
    size := (4, 4)
    texture_attachments :=
      [⟨10, SizedTextureFormat.Rgba8, AttachmentType.Texture,
        AttachmentBindPoint.ColorAttachment 36064 1⟩]
    renderbuffer_attachments :=
      [⟨100, SizedTextureFormat.Depth24, AttachmentType.Renderbuffer,
        AttachmentBindPoint.DepthAttachment 36096⟩]
    has_depth := true }

/-- C6 witness: the dispatch theorem applied to the concrete one-color plus
one-depth framebuffer gives exactly one color clear and no stencil clear. -/
theorem C6_witness :
    (fbCD.clear (1, 0, 0, 1)).countP isColorClear = 1
      ∧ (fbCD.clear (1, 0, 0, 1)).countP isStencilClear = 0 := by
  have h := (C6_clear_dispatch fbCD (1, 0, 0, 1)).2.2
    (by decide) (by decide) (by decide)
  exact ⟨h.1, h.2.2.1⟩

/-- C9: get_texture_attachment is a bounds-checked lookup into the texture
attachment list only: it returns the element at the index when the index is
in bounds, is fatal (modelled none) exactly when the index reaches the list
length, never depends on the renderbuffer list, succeeds at length minus one
on a non-empty list and fails at the exact length boundary. -/
theorem C9_get_texture_attachment (fb : Framebuffer) (index : Nat) :
    (∀ h : index < fb.texture_attachments.length,
        fb.get_texture_attachment index
          = some (fb.texture_attachments.get ⟨index, h⟩))
      ∧ (fb.texture_attachments.length ≤ index →
          fb.get_texture_attachment index = none)
      ∧ (∀ rbs : List FramebufferAttachment,
          Framebuffer.get_texture_attachment
              { fb with renderbuffer_attachments := rbs } index
            = fb.get_texture_attachment index)
      ∧ (fb.texture_attachments ≠ [] →
          fb.get_texture_attachment (fb.texture_attachments.length - 1) ≠ none)
      ∧ fb.get_texture_attachment fb.texture_attachments.length = none := by
  refine ⟨?_, ?_, ?_, ?_, ?_⟩
  · intro h
    simp [Framebuffer.get_texture_attachment, h]
  · intro h
    simp [Framebuffer.get_texture_attachment, Nat.not_lt.mpr h]
  · intro rbs
    rfl
  · intro hne
    have hlt : fb.texture_attachments.length - 1 < fb.texture_attachments.length :=
      Nat.sub_lt (List.length_pos.mpr hne) Nat.one_pos
    simp [Framebuffer.get_texture_attachment, hlt]
  · simp [Framebuffer.get_texture_attachment]

/-- C9 witness: the lookup theorem applied to the concrete framebuffer with
one texture attachment succeeds at index 0 and fails at index 1. -/
theorem C9_witness :
    fbCD.get_texture_attachment 0
        = some ⟨10, SizedTextureFormat.Rgba8, AttachmentType.Texture,
            AttachmentBindPoint.ColorAttachment 36064 1⟩
      ∧ fbCD.get_texture_attachment 1 = none := by
  exact ⟨(C9_get_texture_attachment fbCD 0).1 (by decide),
    (C9_get_texture_attachment fbCD 1).2.1 (by decide)⟩

/-- Well-formedness of the shader slot array: a shader stored at a slot has
the stage kind of that slot.  This invariant is established by new and
preserved by add_shader, the only operations writing the array. -/
def pipeline_wf (p : ProgramPipeline) : Prop :=
  ∀ i : Fin 6,
    ((p.shaders i).all fun sh => shader_type_to_array_index sh.ty == i) = true

/-- Elimination form of pipeline well-formedness. -/
lemma pipeline_wf_elim {p : ProgramPipeline} (h : pipeline_wf p) {i : Fin 6}
    {sh : Shader} (hi : p.shaders i = some sh) :
    shader_type_to_array_index sh.ty = i := by
  have hh := h i
  rw [hi] at hh
  simpa [Option.all] using hh

/-- A fresh pipeline is well-formed. -/
lemma pipeline_wf_new (ident : Nat) : pipeline_wf (ProgramPipeline.new ident) :=
  fun _ => rfl

/-- add_shader preserves well-formedness. -/
lemma pipeline_wf_add (p : ProgramPipeline) (s : Shader) (h : pipeline_wf p) :
    pipeline_wf (p.add_shader s).1 := by
  intro i
  show ((Function.update p.shaders (shader_type_to_array_index s.ty)
      (some s)) i).all _ = true
  rcases eq_or_ne i (shader_type_to_array_index s.ty) with he | hne
  · subst he
    rw [Function.update_same]
    simp [Option.all]
  · rw [Function.update_noteq hne]
    exact h i

/-- A sequence of add_shader calls applied to a pipeline. -/
def pipeline_fold (p : ProgramPipeline) (L : List Shader) : ProgramPipeline :=
  L.foldl (fun q s => (q.add_shader s).1) p

/-- A sequence of add_shader calls preserves well-formedness. -/
lemma pipeline_fold_wf (L : List Shader) :
    ∀ p, pipeline_wf p → pipeline_wf (pipeline_fold p L) := by
  induction L with
  | nil => intro p h; exact h
  | cons s L ih =>
      intro p h
      exact ih (p.add_shader s).1 (pipeline_wf_add p s h)

/-- A sequence of add_shader calls never touches the program array. -/
lemma pipeline_fold_programs (L : List Shader) :
    ∀ p, (pipeline_fold p L).shader_programs = p.shader_programs := by
  induction L with
  | nil => intro p; rfl
  | cons s L ih => intro p; exact ih (p.add_shader s).1

/-- A pipeline produced by new followed by a sequence of add_shader calls. -/
def pipeline_of (ident : Nat) (L : List Shader) : ProgramPipeline :=
  pipeline_fold (ProgramPipeline.new ident) L

/-- The build loop never erases a stored program handle. -/
lemma build_loop_mono (drv : GlLinkDriver) (shaders : Fin 6 → Option Shader) :
    ∀ (slots : List (Fin 6)) (programs : Fin 6 → Option Nat) (nextId : Nat)
      (k : Fin 6), (programs k).isSome = true →
      ((build_loop drv shaders programs nextId slots).1 k).isSome = true := by
  intro slots
  induction slots with
  | nil => intro programs nextId k h; exact h
  | cons j rest ih =>
      intro programs nextId k h
      cases hj : shaders j with
      | none => simpa [build_loop, hj] using ih programs nextId k h
      | some sh =>
          cases hl : drv.linkOk sh.id with
          | true =>
              have hup : ((Function.update programs
                  (shader_type_to_array_index sh.ty) (some nextId)) k).isSome
                  = true := by
                rcases eq_or_ne k (shader_type_to_array_index sh.ty) with he | hne
                · subst he; rw [Function.update_same]; rfl
                · rw [Function.update_noteq hne]; exact h
              simpa [build_loop, hj, hl] using ih _ _ k hup
          | false =>
              simpa [build_loop, hj, hl] using h

/-- The build loop leaves a slot untouched when no shader of the processed
slots maps to it. -/
lemma build_loop_untouched (drv : GlLinkDriver) (shaders : Fin 6 → Option Shader) :
    ∀ (slots : List (Fin 6)) (programs : Fin 6 → Option Nat) (nextId : Nat)
      (k : Fin 6),
      (∀ j ∈ slots, ∀ sh, shaders j = some sh →
        shader_type_to_array_index sh.ty ≠ k) →
      (build_loop drv shaders programs nextId slots).1 k = programs k := by
  intro slots
  induction slots with
  | nil => intro programs nextId k _; rfl
  | cons j rest ih =>
      intro programs nextId k hno
      cases hj : shaders j with
      | none =>
          simpa [build_loop, hj] using
            ih programs nextId k
              (fun j₂ hj₂ sh hsh => hno j₂ (List.mem_cons_of_mem j hj₂) sh hsh)
      | some sh =>
          have hk : shader_type_to_array_index sh.ty ≠ k :=
            hno j (List.mem_cons_self j rest) sh hj
          cases hl : drv.linkOk sh.id with
          | true =>
              have hrest := ih (Function.update programs
                  (shader_type_to_array_index sh.ty) (some nextId)) (nextId + 1) k
                (fun j₂ hj₂ sh₂ hsh₂ => hno j₂ (List.mem_cons_of_mem j hj₂) sh₂ hsh₂)
              rw [Function.update_noteq (Ne.symm hk)] at hrest
              simpa [build_loop, hj, hl] using hrest
          | false =>
              simp [build_loop, hj, hl]

/-- When the build loop finishes with Ok, every occupied slot of a
well-formed shader array holds a stored program handle afterwards. -/
lemma build_loop_ok_store (drv : GlLinkDriver) (shaders : Fin 6 → Option Shader)
    (hwf : ∀ j sh, shaders j = some sh → shader_type_to_array_index sh.ty = j) :
    ∀ (slots : List (Fin 6)) (programs : Fin 6 → Option Nat) (nextId : Nat)
      (k : Fin 6) (sh : Shader),
      (build_loop drv shaders programs nextId slots).2.2 = Except.ok () →
      k ∈ slots → shaders k = some sh →
      ((build_loop drv shaders programs nextId slots).1 k).isSome = true := by
  intro slots
  induction slots with
  | nil => intro programs nextId k sh _ hk _; cases hk
  | cons j rest ih =>
      intro programs nextId k sh hok hk hsh
      cases hj : shaders j with
      | none =>
          have hkj : k ≠ j := fun he => by rw [he, hj] at hsh; cases hsh
          have hk₂ : k ∈ rest := by
            cases List.mem_cons.mp hk with
            | inl h => exact absurd h hkj
            | inr h => exact h
          rw [show (build_loop drv shaders programs nextId (j :: rest))
              = build_loop drv shaders programs nextId rest from by
            simp [build_loop, hj]] at hok ⊢
          exact ih programs nextId k sh hok hk₂ hsh
      | some sh₂ =>
          cases hl : drv.linkOk sh₂.id with
          | false => simp [build_loop, hj, hl] at hok
          | true =>
              have hred : build_loop drv shaders programs nextId (j :: rest)
                  = ((build_loop drv shaders
                        (Function.update programs
                          (shader_type_to_array_index sh₂.ty) (some nextId))
                        (nextId + 1) rest).1,
                      LinkEvent.mk j sh₂.id nextId true
                        :: (build_loop drv shaders
                            (Function.update programs
                              (shader_type_to_array_index sh₂.ty) (some nextId))
                            (nextId + 1) rest).2.1,
                      (build_loop drv shaders
                          (Function.update programs
                            (shader_type_to_array_index sh₂.ty) (some nextId))
                          (nextId + 1) rest).2.2) := by
                simp [build_loop, hj, hl]
              rw [hred] at hok ⊢
              rcases eq_or_ne k j with he | hne
              · subst he
                have hsh₂ : sh₂ = sh := by rw [hj] at hsh; exact (Option.some.injEq _ _).mp hsh
                subst hsh₂
                refine build_loop_mono drv shaders rest _ (nextId + 1) k ?_
                rw [hwf k sh₂ hsh, Function.update_same]
                rfl
              · have hk₂ : k ∈ rest := by
                  cases List.mem_cons.mp hk with
                  | inl h => exact absurd h hne
                  | inr h => exact h
                exact ih _ (nextId + 1) k sh hok hk₂ hsh

/-- When the build loop finishes with Ok, every occupied slot produced a
successful link event recording its shader id. -/
lemma build_loop_ok_event (drv : GlLinkDriver) (shaders : Fin 6 → Option Shader) :
    ∀ (slots : List (Fin 6)) (programs : Fin 6 → Option Nat) (nextId : Nat)
      (k : Fin 6) (sh : Shader),
      (build_loop drv shaders programs nextId slots).2.2 = Except.ok () →
      k ∈ slots → shaders k = some sh →
      ∃ e ∈ (build_loop drv shaders programs nextId slots).2.1,
        e.slot = k ∧ e.shaderId = sh.id ∧ e.ok = true := by
  intro slots
  induction slots with
  | nil => intro programs nextId k sh _ hk _; cases hk
  | cons j rest ih =>
      intro programs nextId k sh hok hk hsh
      cases hj : shaders j with
      | none =>
          have hkj : k ≠ j := fun he => by rw [he, hj] at hsh; cases hsh
          have hk₂ : k ∈ rest := by
            cases List.mem_cons.mp hk with
            | inl h => exact absurd h hkj
            | inr h => exact h
          rw [show (build_loop drv shaders programs nextId (j :: rest))
              = build_loop drv shaders programs nextId rest from by
            simp [build_loop, hj]] at hok ⊢
          exact ih programs nextId k sh hok hk₂ hsh
      | some sh₂ =>
          cases hl : drv.linkOk sh₂.id with
          | false => simp [build_loop, hj, hl] at hok
          | true =>
              have hred : (build_loop drv shaders programs nextId (j :: rest)).2.1
                  = LinkEvent.mk j sh₂.id nextId true
                      :: (build_loop drv shaders
                          (Function.update programs
                            (shader_type_to_array_index sh₂.ty) (some nextId))
                          (nextId + 1) rest).2.1 := by
                simp [build_loop, hj, hl]
              have hok₂ : (build_loop drv shaders
                  (Function.update programs
                    (shader_type_to_array_index sh₂.ty) (some nextId))
                  (nextId + 1) rest).2.2 = Except.ok () := by
                rw [show (build_loop drv shaders programs nextId (j :: rest)).2.2
                    = (build_loop drv shaders
                        (Function.update programs
                          (shader_type_to_array_index sh₂.ty) (some nextId))
                        (nextId + 1) rest).2.2 from by
                  simp [build_loop, hj, hl]] at hok
                exact hok
              rw [hred]
              rcases eq_or_ne k j with he | hne
              · subst he
                have hsh₂ : sh₂ = sh := by rw [hj] at hsh; exact (Option.some.injEq _ _).mp hsh
                subst hsh₂
                exact ⟨LinkEvent.mk k sh₂.id nextId true,
                  List.mem_cons_self _ _, rfl, rfl, rfl⟩
              · have hk₂ : k ∈ rest := by
                  cases List.mem_cons.mp hk with
                  | inl h => exact absurd h hne
                  | inr h => exact h
                obtain ⟨e, hmem, hprop⟩ := ih _ (nextId + 1) k sh hok₂ hk₂ hsh
                exact ⟨e, List.mem_cons_of_mem _ hmem, hprop⟩

/-- When the first failing occupied slot is reached, the build loop stops
with the info log of that slot as the error, records no event past the
failing slot, and stores no program handle outside the prefix of earlier
slots. -/
lemma build_loop_abort (drv : GlLinkDriver) (shaders : Fin 6 → Option Shader)
    (hwf : ∀ j sh, shaders j = some sh → shader_type_to_array_index sh.ty = j) :
    ∀ (pre post : List (Fin 6)) (i : Fin 6) (sh : Shader)
      (programs : Fin 6 → Option Nat) (nextId : Nat),
      shaders i = some sh → drv.linkOk sh.id = false →
      (∀ j ∈ pre, ∀ sh₂, shaders j = some sh₂ → drv.linkOk sh₂.id = true) →
      (build_loop drv shaders programs nextId (pre ++ i :: post)).2.2
          = Except.error (drv.infoLog sh.id)
        ∧ (∀ e ∈ (build_loop drv shaders programs nextId (pre ++ i :: post)).2.1,
            e.slot ∈ pre ∨ e.slot = i)
        ∧ (∀ k : Fin 6, k ∉ pre →
            (build_loop drv shaders programs nextId (pre ++ i :: post)).1 k
              = programs k) := by
  intro pre
  induction pre with
  | nil =>
      intro post i sh programs nextId hi hbad _
      refine ⟨by simp [build_loop, hi, hbad], ?_, ?_⟩
      · intro e he
        simp [build_loop, hi, hbad] at he
        rw [he]
        exact Or.inr rfl
      · intro k _
        simp [build_loop, hi, hbad]
  | cons j pre ih =>
      intro post i sh programs nextId hi hbad hpre
      have hpre₂ : ∀ j₂ ∈ pre, ∀ sh₂, shaders j₂ = some sh₂ →
          drv.linkOk sh₂.id = true :=
        fun j₂ hj₂ sh₂ hsh₂ => hpre j₂ (List.mem_cons_of_mem j hj₂) sh₂ hsh₂
      cases hj : shaders j with
      | none =>
          have hred : build_loop drv shaders programs nextId
              ((j :: pre) ++ i :: post)
              = build_loop drv shaders programs nextId (pre ++ i :: post) := by
            simp [build_loop, hj]
          obtain ⟨h₁, h₂, h₃⟩ := ih post i sh programs nextId hi hbad hpre₂
          rw [hred]
          exact ⟨h₁,
            fun e he => (h₂ e he).imp (fun hh => List.mem_cons_of_mem j hh) id,
            fun k hk => h₃ k (fun hh => hk (List.mem_cons_of_mem j hh))⟩
      | some sh₂ =>
          have hl : drv.linkOk sh₂.id = true :=
            hpre j (List.mem_cons_self j pre) sh₂ hj
          have hred : build_loop drv shaders programs nextId
              ((j :: pre) ++ i :: post)
              = ((build_loop drv shaders
                    (Function.update programs
                      (shader_type_to_array_index sh₂.ty) (some nextId))
                    (nextId + 1) (pre ++ i :: post)).1,
                  LinkEvent.mk j sh₂.id nextId true
                    :: (build_loop drv shaders
                        (Function.update programs
                          (shader_type_to_array_index sh₂.ty) (some nextId))
                        (nextId + 1) (pre ++ i :: post)).2.1,
                  (build_loop drv shaders
                      (Function.update programs
                        (shader_type_to_array_index sh₂.ty) (some nextId))
                      (nextId + 1) (pre ++ i :: post)).2.2) := by
            simp [build_loop, hj, hl]
          obtain ⟨h₁, h₂, h₃⟩ := ih post i sh
            (Function.update programs
              (shader_type_to_array_index sh₂.ty) (some nextId))
            (nextId + 1) hi hbad hpre₂
          rw [hred]
          refine ⟨h₁, ?_, ?_⟩
          · intro e he
            cases List.mem_cons.mp he with
            | inl h => rw [h]; exact Or.inl (List.mem_cons_self j pre)
            | inr h =>
                exact (h₂ e h).imp (fun hh => List.mem_cons_of_mem j hh) id
          · intro k hk
            have hkj : k ≠ j := fun he => hk (he ▸ List.mem_cons_self j pre)
            have hknp : k ∉ pre := fun hh => hk (List.mem_cons_of_mem j hh)
            rw [h₃ k hknp, Function.update_noteq (hwf j sh₂ hj ▸ hkj)]

/-- Unfolding equation of ProgramPipeline::build. -/
lemma build_def (p : ProgramPipeline) (drv : GlLinkDriver) :
    p.build drv
      = ({ p with shader_programs :=
            (build_loop drv p.shaders p.shader_programs drv.firstProgramId
              allSlots).1 },
          (build_loop drv p.shaders p.shader_programs drv.firstProgramId
            allSlots).2.1,
          (build_loop drv p.shaders p.shader_programs drv.firstProgramId
            allSlots).2.2) := rfl

/-- Every slot occurs in the build iteration order. -/
lemma mem_allSlots (i : Fin 6) : i ∈ allSlots := by
  have h : ∀ j : Fin 6, j ∈ allSlots := by decide
  exact h i

/-- A concrete link driver that always succeeds. -/
def drvOk : GlLinkDriver :=
  { linkOk := fun _ => true, infoLog := fun _ => "", firstProgramId := 100 }

/-- A concrete link driver that always fails with a fixed diagnostic. -/
def drvBad : GlLinkDriver :=
  { linkOk := fun _ => false, infoLog := fun _ => "link failed",
    firstProgramId := 100 }

/-- A concrete pipeline holding only a vertex shader. -/
def pV : ProgramPipeline :=
  ((ProgramPipeline.new 8).add_shader ⟨1, ShaderType.Vertex⟩).1

/-- A concrete pipeline holding only a fragment shader. -/
def pF : ProgramPipeline :=
  ((ProgramPipeline.new 9).add_shader ⟨2, ShaderType.Fragment⟩).1

/-- C3 counterexample: a build failing at the vertex stage and a build
failing at the fragment stage return the same error value whenever the
driver reports the same info-log text, so the returned error carries only
the raw diagnostic text and does not identify the failing stage. -/
theorem C3_counterexample :
    (pV.build drvBad).2.2 = Except.error "link failed"
      ∧ (pF.build drvBad).2.2 = Except.error "link failed"
      ∧ pV.shaders 0 = some ⟨1, ShaderType.Vertex⟩
      ∧ pF.shaders 4 = some ⟨2, ShaderType.Fragment⟩
      ∧ ShaderType.Vertex ≠ ShaderType.Fragment := by
  exact ⟨rfl, rfl, rfl, rfl, by decide⟩

/-- C3 amended: when build reaches the first occupied slot whose link fails
it aborts immediately, returning the raw driver diagnostic of that stage as
the error (without any stage identity); no event is recorded for a slot past
the failing one and no program handle is stored for the failing stage, any
later stage, or any slot outside the prefix of earlier slots. -/
theorem C3_abort_on_first_failure (p : ProgramPipeline) (drv : GlLinkDriver)
    (pre post : List (Fin 6)) (i : Fin 6) (sh : Shader)
    (hwf : pipeline_wf p)
    (hsplit : allSlots = pre ++ i :: post)
    (hsh : p.shaders i = some sh)
    (hbad : drv.linkOk sh.id = false)
    (hpre : ∀ j ∈ pre, ∀ sh₂, p.shaders j = some sh₂ →
      drv.linkOk sh₂.id = true) :
    (p.build drv).2.2 = Except.error (drv.infoLog sh.id)
      ∧ (∀ e ∈ (p.build drv).2.1, e.slot ∈ pre ∨ e.slot = i)
      ∧ (∀ k : Fin 6, k ∉ pre →
          (p.build drv).1.shader_programs k = p.shader_programs k) := by
  have hwf₂ : ∀ j sh₂, p.shaders j = some sh₂ →
      shader_type_to_array_index sh₂.ty = j :=
    fun j sh₂ h => pipeline_wf_elim hwf h
  have h := build_loop_abort drv p.shaders hwf₂ pre post i sh
    p.shader_programs drv.firstProgramId hsh hbad hpre
  rw [build_def, hsplit]
  exact h

/-- C3 witness: the abort theorem applied to the concrete pipeline whose
only shader, at the fragment slot, fails to link. -/
theorem C3_witness :
    (pF.build drvBad).2.2 = Except.error (drvBad.infoLog 2) := by
  refine (C3_abort_on_first_failure pF drvBad [0, 1, 2, 3] [5] 4
    ⟨2, ShaderType.Fragment⟩ (fun i => by fin_cases i <;> rfl) (by decide)
    rfl rfl ?_).1
  intro j hj sh₂ hsh₂
  fin_cases hj <;> exact Option.noConfusion hsh₂

/-- C4: starting from a fresh pipeline, after any sequence of add_shader
calls followed by a build that returns Ok, slot i of the linked-program
array is populated exactly when a shader is attached at slot i. -/
theorem C4_program_slot_iff_shader_slot (ident : Nat) (L : List Shader)
    (drv : GlLinkDriver) (i : Fin 6)
    (hok : ((pipeline_of ident L).build drv).2.2 = Except.ok ()) :
    (((pipeline_of ident L).build drv).1.shader_programs i).isSome
      = ((pipeline_of ident L).shaders i).isSome := by
  have hwf : pipeline_wf (pipeline_of ident L) :=
    pipeline_fold_wf L _ (pipeline_wf_new ident)
  have hwf₂ : ∀ j sh, (pipeline_of ident L).shaders j = some sh →
      shader_type_to_array_index sh.ty = j :=
    fun j sh h => pipeline_wf_elim hwf h
  have hprog : (pipeline_of ident L).shader_programs i = none := by
    have h := pipeline_fold_programs L (ProgramPipeline.new ident)
    show (pipeline_of ident L).shader_programs i = none
    rw [show (pipeline_of ident L).shader_programs
        = (ProgramPipeline.new ident).shader_programs from h]
    rfl
  cases hsh : (pipeline_of ident L).shaders i with
  | some sh =>
      have hstore := build_loop_ok_store drv (pipeline_of ident L).shaders hwf₂
        allSlots (pipeline_of ident L).shader_programs drv.firstProgramId i sh
        hok (mem_allSlots i) hsh
      show ((build_loop drv (pipeline_of ident L).shaders
          (pipeline_of ident L).shader_programs drv.firstProgramId
          allSlots).1 i).isSome = (some sh).isSome
      rw [hstore]
      rfl
  | none =>
      have hno : ∀ j ∈ allSlots, ∀ sh, (pipeline_of ident L).shaders j = some sh →
          shader_type_to_array_index sh.ty ≠ i := by
        intro j _ sh hsh₂ heq
        have hji : j = i := (hwf₂ j sh hsh₂).symm.trans heq
        rw [hji] at hsh₂
        rw [hsh₂] at hsh
        cases hsh
      have huntouched := build_loop_untouched drv (pipeline_of ident L).shaders
        allSlots (pipeline_of ident L).shader_programs drv.firstProgramId i hno
      show ((build_loop drv (pipeline_of ident L).shaders
          (pipeline_of ident L).shader_programs drv.firstProgramId
          allSlots).1 i).isSome = (none : Option Shader).isSome
      rw [huntouched, hprog]
      rfl

/-- C4 witness: the slot correspondence applied after attaching a vertex and
a fragment shader and building with an always-linking driver, at the
fragment slot. -/
theorem C4_witness :
    (((pipeline_of 7 [⟨1, ShaderType.Vertex⟩, ⟨2, ShaderType.Fragment⟩]).build
          drvOk).1.shader_programs 4).isSome
      = ((pipeline_of 7 [⟨1, ShaderType.Vertex⟩,
          ⟨2, ShaderType.Fragment⟩]).shaders 4).isSome := by
  exact C4_program_slot_iff_shader_slot 7
    [⟨1, ShaderType.Vertex⟩, ⟨2, ShaderType.Fragment⟩] drvOk 4 rfl

/-- The resource lookup fails when the stage holds no linked program. -/
lemma lookup_none (p : ProgramPipeline) (drv : GlResourceDriver)
    (stage : ShaderType) (name : String)
    (h : p.shader_programs (shader_type_to_array_index stage) = none) :
    get_shader_stage_id_and_resource_location p drv stage name
      = Except.error "Shader is not present in the program pipeline" := by
  unfold get_shader_stage_id_and_resource_location
  rw [h]

/-- The resource lookup fails when the driver resolves a negative
location. -/
lemma lookup_neg (p : ProgramPipeline) (drv : GlResourceDriver)
    (stage : ShaderType) (name : String) (pid : Nat)
    (h : p.shader_programs (shader_type_to_array_index stage) = some pid)
    (hneg : drv.resourceLocation pid name < 0) :
    get_shader_stage_id_and_resource_location p drv stage name
      = Except.error
          ("Uniform " ++ name ++ " is not active or does not exist in shader stage") := by
  unfold get_shader_stage_id_and_resource_location
  rw [h]
  simp [hneg]

/-- The resource lookup succeeds with the resolved pair when the stage holds
a linked program and the driver resolves a non-negative location. -/
lemma lookup_pos (p : ProgramPipeline) (drv : GlResourceDriver)
    (stage : ShaderType) (name : String) (pid : Nat)
    (h : p.shader_programs (shader_type_to_array_index stage) = some pid)
    (hpos : 0 ≤ drv.resourceLocation pid name) :
    get_shader_stage_id_and_resource_location p drv stage name
      = Except.ok (pid, drv.resourceLocation pid name) := by
  unfold get_shader_stage_id_and_resource_location
  rw [h]
  simp [Int.not_lt.mpr hpos]

/-- C7: each uniform-setting operation is fatal at the call site exactly
when the stage holds no linked program or the driver resolves a negative
location, and when the lookup succeeds each operation issues its driver
calls built from the resolved program handle and location (set_texture uses
the location as the texture unit for both bind calls). -/
theorem C7_uniform_setting_fatal_or_resolved (p : ProgramPipeline)
    (drv : GlResourceDriver) (stage : ShaderType) (name : String)
    (mval : Nat) (ival : Int) (tex smp : Nat) :
    (p.shader_programs (shader_type_to_array_index stage) = none →
        (∃ m, p.set_matrix4f drv name mval stage = SetOutcome.fatal m)
        ∧ (∃ m, p.set_integer drv name ival stage = SetOutcome.fatal m)
        ∧ (∃ m, p.set_texture drv name tex smp stage = SetOutcome.fatal m))
      ∧ (∀ pid, p.shader_programs (shader_type_to_array_index stage) = some pid →
          drv.resourceLocation pid name < 0 →
          (∃ m, p.set_matrix4f drv name mval stage = SetOutcome.fatal m)
          ∧ (∃ m, p.set_integer drv name ival stage = SetOutcome.fatal m)
          ∧ (∃ m, p.set_texture drv name tex smp stage = SetOutcome.fatal m))
      ∧ (∀ pid, p.shader_programs (shader_type_to_array_index stage) = some pid →
          0 ≤ drv.resourceLocation pid name →
          get_shader_stage_id_and_resource_location p drv stage name
            = Except.ok (pid, drv.resourceLocation pid name)
          ∧ p.set_matrix4f drv name mval stage
            = SetOutcome.calls
                [GlCall.programUniformMatrix4fv pid
                  (drv.resourceLocation pid name) mval]
          ∧ p.set_integer drv name ival stage
            = SetOutcome.calls
                [GlCall.programUniform1i pid (drv.resourceLocation pid name) ival]
          ∧ p.set_texture drv name tex smp stage
            = SetOutcome.calls
                [GlCall.bindTextureUnit (drv.resourceLocation pid name) tex,
                 GlCall.bindSampler (drv.resourceLocation pid name) smp]) := by
  refine ⟨?_, ?_, ?_⟩
  · intro h
    have hl := lookup_none p drv stage name h
    exact ⟨⟨_, by rw [ProgramPipeline.set_matrix4f, hl]⟩,
      ⟨_, by rw [ProgramPipeline.set_integer, hl]⟩,
      ⟨_, by rw [ProgramPipeline.set_texture, hl]⟩⟩
  · intro pid h hneg
    have hl := lookup_neg p drv stage name pid h hneg
    exact ⟨⟨_, by rw [ProgramPipeline.set_matrix4f, hl]⟩,
      ⟨_, by rw [ProgramPipeline.set_integer, hl]⟩,
      ⟨_, by rw [ProgramPipeline.set_texture, hl]⟩⟩
  · intro pid h hpos
    have hl := lookup_pos p drv stage name pid h hpos
    exact ⟨hl, by rw [ProgramPipeline.set_matrix4f, hl],
      by rw [ProgramPipeline.set_integer, hl],
      by rw [ProgramPipeline.set_texture, hl]⟩

/-- A concrete pipeline holding a linked program with handle 55 at the
vertex slot. -/
def p7 : ProgramPipeline :=
  { id := 2
    shaders := fun _ => none
    shader_programs := Function.update (fun _ => none) 0 (some 55) }

/-- A concrete resource driver resolving every name to location 3. -/
def drvLoc : GlResourceDriver := { resourceLocation := fun _ _ => 3 }

/-- C7 witness: the resolution theorem applied at the concrete pipeline and
driver gives the concrete matrix upload call. -/
theorem C7_witness :
    p7.set_matrix4f drvLoc "mvp" 77 ShaderType.Vertex
      = SetOutcome.calls [GlCall.programUniformMatrix4fv 55
          (drvLoc.resourceLocation 55 "mvp") 77] := by
  exact ((C7_uniform_setting_fatal_or_resolved p7 drvLoc ShaderType.Vertex
    "mvp" 77 0 0 0).2.2 55 rfl (by decide)).2.1

/-- C8: add_shader stores the borrowed shader reference at the slot of its
stage kind, overwrites any prior occupant while reporting only a non-fatal
warning (the warning flag is set exactly when the slot was occupied), leaves
every other slot and the program array untouched; after a sequence of calls
for one stage kind only the last shader is present at that slot, and a
subsequent successful build links exactly that shader there. -/
theorem C8_add_shader_last_wins (p : ProgramPipeline) (s : Shader)
    (L : List Shader) (t : ShaderType) (drv : GlLinkDriver) :
    (p.add_shader s).1.shaders (shader_type_to_array_index s.ty) = some s
      ∧ (p.add_shader s).2
          = (p.shaders (shader_type_to_array_index s.ty)).isSome
      ∧ (∀ k, k ≠ shader_type_to_array_index s.ty →
          (p.add_shader s).1.shaders k = p.shaders k)
      ∧ (p.add_shader s).1.shader_programs = p.shader_programs
      ∧ ((∀ x ∈ L ++ [s], x.ty = t) →
          (pipeline_fold p (L ++ [s])).shaders (shader_type_to_array_index t)
            = some s
          ∧ (((pipeline_fold p (L ++ [s])).build drv).2.2 = Except.ok () →
              ∃ e ∈ ((pipeline_fold p (L ++ [s])).build drv).2.1,
                e.slot = shader_type_to_array_index t
                ∧ e.shaderId = s.id ∧ e.ok = true)) := by
  refine ⟨Function.update_same _ _ _, rfl,
    fun k hk => Function.update_noteq hk _ _, rfl, ?_⟩
  intro hty
  have hs : s.ty = t := hty s (by simp)
  have hlast : pipeline_fold p (L ++ [s])
      = ((pipeline_fold p L).add_shader s).1 := by
    unfold pipeline_fold
    rw [List.foldl_append]
    rfl
  have hstore : (pipeline_fold p (L ++ [s])).shaders
      (shader_type_to_array_index t) = some s := by
    rw [hlast, ← hs]
    exact Function.update_same _ _ _
  refine ⟨hstore, ?_⟩
  intro hok
  exact build_loop_ok_event drv (pipeline_fold p (L ++ [s])).shaders allSlots
    (pipeline_fold p (L ++ [s])).shader_programs drv.firstProgramId
    (shader_type_to_array_index t) s hok (mem_allSlots _) hstore

/-- C8 witness: after attaching two vertex shaders the slot holds the second
one. -/
theorem C8_witness :
    (pipeline_fold (ProgramPipeline.new 3)
        ([⟨4, ShaderType.Vertex⟩] ++ [⟨5, ShaderType.Vertex⟩])).shaders
        (shader_type_to_array_index ShaderType.Vertex)
      = some ⟨5, ShaderType.Vertex⟩ := by
  exact ((C8_add_shader_last_wins (ProgramPipeline.new 3)
    ⟨5, ShaderType.Vertex⟩ [⟨4, ShaderType.Vertex⟩] ShaderType.Vertex
    drvOk).2.2.2.2 (by decide)).1
